import Mathlib

-- Verification of the ordered-association subsystem of the podcaster
-- backoffice API: a shallow embedding of the domain/api layer and of the
-- MySQL adapters (modelled as an in-memory store: a table is a list of rows
-- in insertion order; INSERT appends, DELETE filters, SELECT filters).
-- Conventions used throughout:
--  * Go strings are `String`, Go `int` is `Int`.
--  * `sql.NullString` is `Option String` (`none` = NULL); scanning NULL back
--    gives `""` exactly as Go's `NullString.String` does.
--  * `uuid.New()` for association-row IDs is modelled by a monotone counter
--    threaded through the store state (`next`): each generated ID is fresh
--    and all generated IDs are pairwise distinct, which is precisely the
--    guarantee the caller relies on.
--  * a Go function that can dereference a nil pointer is embedded with an
--    `Option` result where `none` marks the input on which the dereference
--    happens (no value, and no error value, is produced there).
--  * context arguments and logging are dropped: they do not affect results.

namespace PodcasterSpec

/-- model.ValidationError (internal/domain/model/errors.go): a field name
together with a message describing what is wrong with it. -/
structure ValidationError where
  field : String
  message : String
deriving DecidableEq, Repr

/-- ValidationError.Error(): `fmt.Sprintf("%v : %v", Field, Message)`. -/
def ValidationError.errorString (ve : ValidationError) : String :=
  ve.field ++ " : " ++ ve.message

/-- ValidationErrors.Error() (internal/domain/model/errors.go): the member
errors are combined with errors.Join, whose message is the individual
messages separated by newlines.  The Go code calls this only on a non-empty
slice (on an empty slice the joined error is nil and Go would panic). -/
def validationErrorsString (vs : List ValidationError) : String :=
  String.intercalate "\n" (vs.map ValidationError.errorString)

/-- model.Wall (domain model): id, name, description. -/
structure Wall where
  id : String
  name : String
  description : String
deriving DecidableEq, Repr

/-- sql.NullString built from a Go string the way every FromDomainModel does:
Valid exactly when the string is non-empty. -/
def nullString (s : String) : Option String :=
  if s = "" then none else some s

/-- COALESCE(:param, column): the SQL update keeps the old column value when
the bound parameter is NULL. -/
def coalesce (param old : Option String) : Option String :=
  match param with
  | none => old
  | some v => some v

/-- WallDB (internal/infrastructure/mysql/wall.go): the wall table row;
name and description are nullable. -/
structure WallDB where
  uuid : String
  name : Option String
  description : Option String
deriving DecidableEq, Repr

/-- WallDB.FromDomainModel (mysql/wall.go): empty strings become NULL. -/
def WallDB.fromDomainModel (w : Wall) : WallDB :=
  ⟨w.id, nullString w.name, nullString w.description⟩

/-- WallDB.ToDomainModel (mysql/wall.go): NULL columns read back as "". -/
def WallDB.toDomainModel (db : WallDB) : Wall :=
  ⟨db.uuid, db.name.getD "", db.description.getD ""⟩

/-- wallAdapter.Create (mysql/wall.go): INSERT INTO wall. -/
def wallAdapterCreate (s : List WallDB) (w : Wall) : List WallDB :=
  s ++ [WallDB.fromDomainModel w]

/-- wallAdapter.Update (mysql/wall.go): UPDATE wall SET name =
COALESCE(:name, name), description = COALESCE(:description, description)
WHERE UUID = :UUID, with the parameters produced by FromDomainModel on the
updates whose ID is first set to wallUUID. -/
def wallAdapterUpdate (s : List WallDB) (wallUUID : String) (updates : Wall) :
    List WallDB :=
  let row := WallDB.fromDomainModel { updates with id := wallUUID }
  s.map fun r =>
    if r.uuid = wallUUID then
      { r with name := coalesce row.name r.name,
               description := coalesce row.description r.description }
    else r

/-- wallAdapter.Find (mysql/wall.go): SELECT by UUID; with no matching row the
Go code returns (nil, nil) — a nil wall and a nil error — embedded as `none`. -/
def wallAdapterFind (s : List WallDB) (wallUUID : String) : Option Wall :=
  ((s.filter fun r => r.uuid == wallUUID).head?).map WallDB.toDomainModel

/-- CreateWallRequest (api/wall.go): duck-typed accessors Name, Description. -/
structure CreateWallRequest where
  name : String
  description : String
deriving DecidableEq, Repr

/-- UpdateWallRequest (api/wall.go): duck-typed accessors Name, Description. -/
structure UpdateWallRequest where
  name : String
  description : String
deriving DecidableEq, Repr

/-- createWallRequestValidation (api/wall.go): name and description are
required; one ValidationError is appended per missing field. -/
def createWallRequestValidation (req : CreateWallRequest) :
    List ValidationError :=
  (if req.name = "" then [⟨"name", "is required"⟩] else []) ++
  (if req.description = "" then [⟨"description", "is required"⟩] else [])

/-- updateWallRequestValidation (api/wall.go): only the uuid is checked. -/
def updateWallRequestValidation (wallUUID : String)
    (_req : UpdateWallRequest) : List ValidationError :=
  if wallUUID = "" then [⟨"uuid", "cannot be empty"⟩] else []

/-- wallApi.Create (api/wall.go): validate, then insert a wall carrying a
fresh uuid (uuid.New() is passed in as freshID). -/
def wallApiCreate (s : List WallDB) (req : CreateWallRequest)
    (freshID : String) : Except String (List WallDB) :=
  let vErrs := createWallRequestValidation req
  if vErrs ≠ [] then
    .error ("request was not validated: " ++ validationErrorsString vErrs)
  else
    .ok (wallAdapterCreate s ⟨freshID, req.name, req.description⟩)

/-- wallApi.Update (api/wall.go): validate the uuid, then delegate to the
adapter with a Wall built from the request accessors (empty accessors are
passed through; the adapter's COALESCE is what skips them). -/
def wallApiUpdate (s : List WallDB) (wallUUID : String)
    (updates : UpdateWallRequest) : Except String (List WallDB) :=
  let vErrs := updateWallRequestValidation wallUUID updates
  if vErrs ≠ [] then
    .error ("request was not validated: " ++ validationErrorsString vErrs)
  else
    .ok (wallAdapterUpdate s wallUUID ⟨"", updates.name, updates.description⟩)

/-- pkg.WallResponse: the response object assembled by wallApi.Find. -/
structure WallResponse where
  id : String
  name : String
  description : String
deriving DecidableEq, Repr

/-- wallApi.Find (api/wall.go): the adapter error is checked, but the
(nil, nil) answer of wallAdapter.Find passes the check and the nil wall is
then dereferenced to build the response; `none` marks that dereference —
the service produces neither a response nor an error there. -/
def wallApiFind (s : List WallDB) (wallUUID : String) : Option WallResponse :=
  (wallAdapterFind s wallUUID).map fun w => ⟨w.id, w.name, w.description⟩

/-- model.WallBlock: one wall/block association row carrying a display
position.  The row ID is a uuid string in Go; it is embedded as a `Nat`
drawn from the store's freshness counter (see the header comment). -/
structure WallBlock where
  id : Nat
  wallID : String
  blockID : String
  position : Int
deriving DecidableEq, Repr

/-- In-memory wall_block table (the reference implementation of the
Association Store contract, matching mysql/wall_block.go): `rows` is the
table in insertion order and `next` is the uuid.New() freshness counter. -/
structure WBState where
  rows : List WallBlock
  next : Nat
deriving DecidableEq, Repr

/-- wallBlockAdapter.FindByWallID (mysql/wall_block.go): SELECT * FROM
wall_block WHERE wallUUID = ?. -/
def wallBlockFindByWallID (s : WBState) (wallID : String) : List WallBlock :=
  s.rows.filter fun r => r.wallID == wallID

/-- wallBlockAdapter.Delete (mysql/wall_block.go): DELETE FROM wall_block
WHERE UUID = ?; deleting an absent ID removes nothing (idempotent). -/
def wallBlockDelete (s : WBState) (id : Nat) : WBState :=
  { s with rows := s.rows.filter fun r => !(r.id == id) }

/-- wallBlockAdapter.Create (mysql/wall_block.go): INSERT INTO wall_block. -/
def wallBlockCreate (s : WBState) (r : WallBlock) : WBState :=
  { s with rows := s.rows ++ [r] }

/-- One iteration of the creation loop of wallApi.OverwriteBlocks: build a
model.WallBlock binding the wall, the block and the position under a fresh
ID (uuid.New() is the counter draw), and hand it to the adapter's Create. -/
def wallBlockCreateFresh (acc : WBState) (wallID : String)
    (bp : String × Int) : WBState :=
  { wallBlockCreate acc ⟨acc.next, wallID, bp.1, bp.2⟩ with
    next := acc.next + 1 }

/-- wallApi.OverwriteBlocks (api/wall.go): fetch all associations of the
wall, delete each by its own row ID, then create one fresh row per entry of
the request's OrderedBlocks() map (embedded as an entry list in iteration
order).  No validation of wallID is performed, and with the in-memory store
none of the adapter calls can fail, so the operation always completes. -/
def overwriteBlocks (s : WBState) (wallID : String)
    (orderedBlocks : List (String × Int)) : WBState :=
  let associations := wallBlockFindByWallID s wallID
  let s1 := associations.foldl (fun acc a => wallBlockDelete acc a.id) s
  orderedBlocks.foldl (fun acc bp => wallBlockCreateFresh acc wallID bp) s1

/-- model.Block: id, name, description, kind. -/
structure Block where
  id : String
  name : String
  description : String
  kind : String
deriving DecidableEq, Repr

/-- BlockDB (mysql/block.go): the block table row; the text columns are
nullable. -/
structure BlockDB where
  uuid : String
  name : Option String
  description : Option String
  kind : Option String
deriving DecidableEq, Repr

/-- BlockDB.ToDomainModel (mysql/block.go): NULL columns read back as "". -/
def BlockDB.toDomainModel (db : BlockDB) : Block :=
  ⟨db.uuid, db.name.getD "", db.description.getD "", db.kind.getD ""⟩

/-- blockAdapter.Find (mysql/block.go): SELECT by UUID; with no matching row
the Go code returns (nil, nil) — a nil block and a nil error — embedded as
`none`. -/
def blockAdapterFind (bs : List BlockDB) (blockUUID : String) : Option Block :=
  ((bs.filter fun r => r.uuid == blockUUID).head?).map BlockDB.toDomainModel

/-- pkg.BlockResponse. -/
structure BlockResponse where
  id : String
  name : String
  kind : String
  description : String
deriving DecidableEq, Repr

/-- pkg.WallBlocksResponse: a BlockResponse together with the association's
position. -/
structure WallBlocksResponse where
  block : BlockResponse
  position : Int
deriving DecidableEq, Repr

/-- Loop body of wallApi.FindBlocks, one recursive step per association: the
adapter result is error-checked, but blockAdapter.Find answers a missing
block with (nil, nil), which passes the check and the nil block is then
dereferenced; `none` marks that dereference, so a single unresolvable block
ID yields no result list at all. -/
def findBlocksAux (bs : List BlockDB) : List WallBlock →
    Option (List WallBlocksResponse)
  | [] => some []
  | a :: rest =>
    match blockAdapterFind bs a.blockID with
    | none => none
    | some b =>
      (findBlocksAux bs rest).map
        (fun l => ⟨⟨b.id, b.name, b.kind, b.description⟩, a.position⟩ :: l)

/-- wallApi.FindBlocks (api/wall.go): fetch the wall's associations, then
resolve each block and join in the position. -/
def findBlocks (s : WBState) (bs : List BlockDB) (wallID : String) :
    Option (List WallBlocksResponse) :=
  findBlocksAux bs (wallBlockFindByWallID s wallID)

/-- Rows created by the overwrite engine for parent `wallID` from desired
entries `obs` when the freshness counter starts at `n`: the engine assigns
consecutive fresh IDs in iteration order. -/
def wbBuildRows (n : Nat) (wallID : String) :
    List (String × Int) → List WallBlock
  | [] => []
  | bp :: rest => ⟨n, wallID, bp.1, bp.2⟩ :: wbBuildRows (n + 1) wallID rest

/-- model.BlockProgram: one block/program association row carrying a display
position; the row ID is embedded like WallBlock's. -/
structure BlockProgram where
  id : Nat
  blockID : String
  programID : String
  position : Int
deriving DecidableEq, Repr

/-- In-memory block_program table: the Association Store contract instance
used by blockApi (its adapter follows the same INSERT/DELETE/SELECT pattern
as mysql/wall_block.go). -/
structure BPState where
  rows : List BlockProgram
  next : Nat
deriving DecidableEq, Repr

/-- blockProgramAdapter.FindByBlockID: SELECT by the owning block ID. -/
def blockProgramFindByBlockID (s : BPState) (blockID : String) :
    List BlockProgram :=
  s.rows.filter fun r => r.blockID == blockID

/-- blockProgramAdapter.Delete: DELETE by the association's own row ID. -/
def blockProgramDelete (s : BPState) (id : Nat) : BPState :=
  { s with rows := s.rows.filter fun r => !(r.id == id) }

/-- blockProgramAdapter.Create: INSERT one association row. -/
def blockProgramCreate (s : BPState) (r : BlockProgram) : BPState :=
  { s with rows := s.rows ++ [r] }

/-- One iteration of the creation loop of blockApi.OverwritePrograms. -/
def blockProgramCreateFresh (acc : BPState) (blockID : String)
    (pp : String × Int) : BPState :=
  { blockProgramCreate acc ⟨acc.next, blockID, pp.1, pp.2⟩ with
    next := acc.next + 1 }

/-- blockApi.OverwritePrograms (api/block.go): the same
fetch/delete-all/create-all engine as OverwriteBlocks, instantiated for the
block/program relation; blockID is not validated. -/
def overwritePrograms (s : BPState) (blockID : String)
    (orderedPrograms : List (String × Int)) : BPState :=
  let associations := blockProgramFindByBlockID s blockID
  let s1 := associations.foldl (fun acc a => blockProgramDelete acc a.id) s
  orderedPrograms.foldl
    (fun acc pp => blockProgramCreateFresh acc blockID pp) s1

/-- Rows created by OverwritePrograms for `blockID` from the desired entries
when the freshness counter starts at `n`. -/
def bpBuildRows (n : Nat) (blockID : String) :
    List (String × Int) → List BlockProgram
  | [] => []
  | pp :: rest => ⟨n, blockID, pp.1, pp.2⟩ :: bpBuildRows (n + 1) blockID rest

/-- model.ProgramTag: one program/tag association row (no position). -/
structure ProgramTag where
  id : Nat
  programID : String
  tagID : String
deriving DecidableEq, Repr

/-- In-memory program_tag table (mysql/program_tag.go). -/
structure PTState where
  rows : List ProgramTag
  next : Nat
deriving DecidableEq, Repr

/-- programTagAdapter.FindByProgramID (mysql/program_tag.go). -/
def programTagFindByProgramID (s : PTState) (programID : String) :
    List ProgramTag :=
  s.rows.filter fun r => r.programID == programID

/-- programTagAdapter.Delete (mysql/program_tag.go). -/
def programTagDelete (s : PTState) (id : Nat) : PTState :=
  { s with rows := s.rows.filter fun r => !(r.id == id) }

/-- programTagAdapter.Create (mysql/program_tag.go). -/
def programTagCreate (s : PTState) (r : ProgramTag) : PTState :=
  { s with rows := s.rows ++ [r] }

/-- One iteration of the creation loop of programApi.OverwriteTags. -/
def programTagCreateFresh (acc : PTState) (programID tagID : String) :
    PTState :=
  { programTagCreate acc ⟨acc.next, programID, tagID⟩ with
    next := acc.next + 1 }

/-- programApi.OverwriteTags (api/program.go): the unordered instance of the
engine — the desired set is a plain list of tag IDs; programID is not
validated. -/
def overwriteTags (s : PTState) (programID : String) (tagIDs : List String) :
    PTState :=
  let associations := programTagFindByProgramID s programID
  let s1 := associations.foldl (fun acc a => programTagDelete acc a.id) s
  tagIDs.foldl (fun acc tagID => programTagCreateFresh acc programID tagID) s1

/-- Rows created by OverwriteTags for `programID` when the freshness counter
starts at `n`. -/
def ptBuildRows (n : Nat) (programID : String) : List String → List ProgramTag
  | [] => []
  | tagID :: rest => ⟨n, programID, tagID⟩ :: ptBuildRows (n + 1) programID rest

/-- model.ProgramCategory: one program/category association row. -/
structure ProgramCategory where
  id : Nat
  programID : String
  categoryID : String
deriving DecidableEq, Repr

/-- In-memory program_category table (mysql/media.go,
programCategoryAdapter). -/
structure PCState where
  rows : List ProgramCategory
  next : Nat
deriving DecidableEq, Repr

/-- programCategoryAdapter.FindByProgramID. -/
def programCategoryFindByProgramID (s : PCState) (programID : String) :
    List ProgramCategory :=
  s.rows.filter fun r => r.programID == programID

/-- programCategoryAdapter.Delete. -/
def programCategoryDelete (s : PCState) (id : Nat) : PCState :=
  { s with rows := s.rows.filter fun r => !(r.id == id) }

/-- programCategoryAdapter.Create. -/
def programCategoryCreate (s : PCState) (r : ProgramCategory) : PCState :=
  { s with rows := s.rows ++ [r] }

/-- One iteration of the creation loop of programApi.OverwriteCategories. -/
def programCategoryCreateFresh (acc : PCState) (programID catID : String) :
    PCState :=
  { programCategoryCreate acc ⟨acc.next, programID, catID⟩ with
    next := acc.next + 1 }

/-- programApi.OverwriteCategories (api/program.go): the unordered engine
instance for program/category; programID is not validated. -/
def overwriteCategories (s : PCState) (programID : String)
    (catIDs : List String) : PCState :=
  let associations := programCategoryFindByProgramID s programID
  let s1 := associations.foldl (fun acc a => programCategoryDelete acc a.id) s
  catIDs.foldl (fun acc catID => programCategoryCreateFresh acc programID catID) s1

/-- Rows created by OverwriteCategories for `programID` when the freshness
counter starts at `n`. -/
def pcBuildRows (n : Nat) (programID : String) :
    List String → List ProgramCategory
  | [] => []
  | catID :: rest =>
    ⟨n, programID, catID⟩ :: pcBuildRows (n + 1) programID rest

/-- model.Category: the Parent field is a *Category pointer in Go of which
only the ID field is ever set (always via &Category{ID: ...}) or read
(always via .ID), so it is embedded as the parent's ID with `none` for the
nil pointer. -/
structure Category where
  id : String
  name : String
  description : String
  parent : Option String
deriving DecidableEq, Repr

/-- CreateCategoryRequest (part_008): accessors Name, Description, ParentID. -/
structure CreateCategoryRequest where
  name : String
  description : String
  parentID : String
deriving DecidableEq, Repr

/-- UpdateCategoryRequest (part_008): accessors Name, Description, ParentID. -/
structure UpdateCategoryRequest where
  name : String
  description : String
  parentID : String
deriving DecidableEq, Repr

/-- createCategoryRequestValidation (part_008): name and description are
required. -/
def createCategoryRequestValidation (req : CreateCategoryRequest) :
    List ValidationError :=
  (if req.name = "" then [⟨"name", "is required"⟩] else []) ++
  (if req.description = "" then [⟨"description", "is required"⟩] else [])

/-- updateCategoryRequestValidation (part_008): only the uuid is checked. -/
def updateCategoryRequestValidation (categoryUUID : String)
    (_req : UpdateCategoryRequest) : List ValidationError :=
  if categoryUUID = "" then [⟨"uuid", "cannot be empty"⟩] else []

/-- CategoryDB of the part_016 adapter variant: name and description are
plain strings there, and the parentUUID column is sql.NullString. -/
structure CategoryDB where
  uuid : String
  name : String
  description : String
  parentID : Option String
deriving DecidableEq, Repr

/-- CategoryDB.FromDomainModel (part_016): domain.Parent.ID is read with no
nil check, so the conversion has no value on a nil Parent — `none` marks
that nil-pointer dereference; with a Parent present, an empty parent ID
becomes NULL and a non-empty one a valid parentUUID. -/
def CategoryDB.fromDomainModel (c : Category) : Option CategoryDB :=
  match c.parent with
  | none => none
  | some pid =>
    some ⟨c.id, c.name, c.description, if pid ≠ "" then some pid else none⟩

/-- CategoryDB.ToDomainModel (part_016): the Parent pointer of the result is
always populated and carries the parentUUID column's string ("" for NULL,
exactly NullString.String). -/
def CategoryDB.toDomainModel (db : CategoryDB) : Category :=
  ⟨db.uuid, db.name, db.description, some (db.parentID.getD "")⟩

/-- categoryAdapter.Create (part_016): INSERT INTO category via
FromDomainModel (inheriting its nil-Parent dereference). -/
def categoryAdapterCreate (s : List CategoryDB) (c : Category) :
    Option (List CategoryDB) :=
  (CategoryDB.fromDomainModel c).map fun row => s ++ [row]

/-- categoryAdapter.Update (part_016): name, description and parentUUID are
all written unconditionally for the matching row (the COALESCE on name and
description never sees a NULL in this variant because those parameters are
plain strings, and parentUUID has no COALESCE at all). -/
def categoryAdapterUpdate (s : List CategoryDB) (categoryUUID : String)
    (updates : Category) : Option (List CategoryDB) :=
  (CategoryDB.fromDomainModel { updates with id := categoryUUID }).map
    fun row =>
      s.map fun r =>
        if r.uuid = categoryUUID then
          { r with name := row.name, description := row.description,
                   parentID := row.parentID }
        else r

/-- categoryAdapter.Find (part_016): GetContext answers a missing row with
sql.ErrNoRows, so — unlike the wall adapter — a missing category surfaces
as an error. -/
def categoryAdapterFind (s : List CategoryDB) (categoryUUID : String) :
    Except String Category :=
  match (s.filter fun r => r.uuid == categoryUUID).head? with
  | none => .error "sql: no rows in result set"
  | some row => .ok row.toDomainModel

/-- pkg.CategoryResponse. -/
structure CategoryResponse where
  id : String
  name : String
  description : String
  parentID : String
deriving DecidableEq, Repr

/-- categoryApi.Create (part_008): validate, then build the domain model —
Parent always points at a Category holding the request's ParentID, even
when that is empty — and insert it under a fresh uuid. -/
def categoryApiCreate (s : List CategoryDB) (req : CreateCategoryRequest)
    (freshID : String) : Option (Except String (List CategoryDB)) :=
  let vErrs := createCategoryRequestValidation req
  if vErrs ≠ [] then
    some (.error ("request was not validated: " ++ validationErrorsString vErrs))
  else
    (categoryAdapterCreate s
      ⟨freshID, req.name, req.description, some req.parentID⟩).map .ok

/-- Domain model built by categoryApi.Update (part_008) from the request:
the Go code starts from the zero Category and assigns each field only when
the accessor is non-empty, which for the string fields is the same as
copying them; Parent is set only when ParentID() is non-empty and stays nil
(`none`) otherwise. -/
def categoryToUpdate (req : UpdateCategoryRequest) : Category :=
  ⟨"", req.name, req.description,
   if req.parentID ≠ "" then some req.parentID else none⟩

/-- categoryApi.Update (part_008) composed with the part_016 adapter:
validate the uuid, then delegate; the outer `none` propagates the adapter
conversion's nil-Parent dereference. -/
def categoryApiUpdate (s : List CategoryDB) (categoryUUID : String)
    (req : UpdateCategoryRequest) : Option (Except String (List CategoryDB)) :=
  let vErrs := updateCategoryRequestValidation categoryUUID req
  if vErrs ≠ [] then
    some (.error ("request was not validated: " ++ validationErrorsString vErrs))
  else
    (categoryAdapterUpdate s categoryUUID (categoryToUpdate req)).map .ok

/-- categoryApi.Find (part_008): resolve through the adapter; the response's
ParentID is the Parent pointer's ID when it is set and "" otherwise. -/
def categoryApiFind (s : List CategoryDB) (categoryUUID : String) :
    Except String CategoryResponse :=
  match categoryAdapterFind s categoryUUID with
  | .error e => .error ("error occurred while finding category: " ++ e)
  | .ok category =>
    .ok ⟨category.id, category.name, category.description,
         category.parent.getD ""⟩

/-- Textual form of uuid.Nil, the all-zeros UUID. -/
def zeroUUID : String := "00000000-0000-0000-0000-000000000000"

/-- CategoryDB of the mysql/category.go adapter variant: name and
description are nullable and the parentUUID column is scanned as a plain
uuid.UUID whose zero value is uuid.Nil. -/
structure CategoryDBA where
  uuid : String
  name : Option String
  description : Option String
  parentID : String
deriving DecidableEq, Repr

/-- CategoryDB.FromDomainModel of the mysql/category.go variant: ParentID
starts as uuid.Nil and is overwritten only when the Parent pointer is set
with a non-empty ID (uuid.MustParse on a well-formed uuid string is the
identity); this variant guards the nil Parent, so it is total. -/
def CategoryDBA.fromDomainModel (c : Category) : CategoryDBA :=
  ⟨c.id, nullString c.name, nullString c.description,
   match c.parent with
   | some pid => if pid ≠ "" then pid else zeroUUID
   | none => zeroUUID⟩

/-- categoryAdapter.Update of the mysql/category.go variant: name and
description via COALESCE on NullStrings, and parentUUID via
COALESCE(NULLIF(:parentUUID, zero-uuid), parentUUID) — a zero-uuid
parameter leaves the stored parent untouched. -/
def categoryAdapterUpdateA (s : List CategoryDBA) (categoryUUID : String)
    (updates : Category) : List CategoryDBA :=
  let row := CategoryDBA.fromDomainModel { updates with id := categoryUUID }
  s.map fun r =>
    if r.uuid = categoryUUID then
      { r with name := coalesce row.name r.name,
               description := coalesce row.description r.description,
               parentID :=
                 if row.parentID = zeroUUID then r.parentID else row.parentID }
    else r

/-- categoryApi.Update (part_008) composed with the mysql/category.go
adapter variant (total, since that FromDomainModel guards the nil Parent). -/
def categoryApiUpdateA (s : List CategoryDBA) (categoryUUID : String)
    (req : UpdateCategoryRequest) : Except String (List CategoryDBA) :=
  let vErrs := updateCategoryRequestValidation categoryUUID req
  if vErrs ≠ [] then
    .error ("request was not validated: " ++ validationErrorsString vErrs)
  else
    .ok (categoryAdapterUpdateA s categoryUUID (categoryToUpdate req))

/-- Deleting, one by one, every row ID drawn from a list `l` of associations
filters the table down to the rows whose ID matches none of them; the
freshness counter is untouched. -/
theorem wb_delete_foldl : ∀ (l : List WallBlock) (s : WBState),
    l.foldl (fun acc a => wallBlockDelete acc a.id) s
      = ⟨s.rows.filter (fun r => l.all fun a => !(r.id == a.id)), s.next⟩
  | [], s => by simp
  | a :: l', s => by
    rw [List.foldl_cons, wb_delete_foldl l']
    simp only [wallBlockDelete, List.filter_filter]
    congr 1
    apply List.filter_congr
    intro r _
    simp [List.all_cons, Bool.and_comm]

/-- Creating the desired rows appends exactly `wbBuildRows` and advances the
freshness counter by the number of created rows. -/
theorem wb_create_foldl (w : String) : ∀ (obs : List (String × Int))
    (s : WBState),
    obs.foldl (fun acc bp => wallBlockCreateFresh acc w bp) s
      = ⟨s.rows ++ wbBuildRows s.next w obs, s.next + obs.length⟩
  | [], s => by simp [wbBuildRows]
  | bp :: rest, s => by
    rw [List.foldl_cons, wb_create_foldl w rest]
    simp [wallBlockCreateFresh, wallBlockCreate, wbBuildRows]
    omega

/-- Every row built by the engine belongs to the parent it was built for and
carries an ID in the fresh range `[n, n + length)`. -/
theorem wbBuildRows_mem (w : String) : ∀ (obs : List (String × Int)) (n : Nat)
    (r : WallBlock), r ∈ wbBuildRows n w obs →
    r.wallID = w ∧ n ≤ r.id ∧ r.id < n + obs.length
  | [], _, _, h => by simp [wbBuildRows] at h
  | bp :: rest, n, r, h => by
    simp only [wbBuildRows, List.mem_cons] at h
    rcases h with h | h
    · subst h
      refine ⟨rfl, Nat.le_refl n, ?_⟩
      simp only [List.length_cons]
      omega
    · obtain ⟨h1, h2, h3⟩ := wbBuildRows_mem w rest (n + 1) r h
      refine ⟨h1, by omega, ?_⟩
      simp only [List.length_cons]
      omega

/-- Projecting the engine-built rows back to (child ID, position) pairs gives
back exactly the desired entry list. -/
theorem wbBuildRows_map_pairs (w : String) : ∀ (obs : List (String × Int))
    (n : Nat),
    (wbBuildRows n w obs).map (fun r => (r.blockID, r.position)) = obs
  | [], _ => rfl
  | bp :: rest, n => by
    simp [wbBuildRows, wbBuildRows_map_pairs w rest (n + 1)]

/-- Core postcondition of the overwrite engine (wall/block instance): after
OverwriteBlocks, the associations of the wall are exactly the engine-built
rows for the desired set — every pre-existing association of the wall is
gone and nothing else answers for this wall. -/
theorem overwriteBlocks_find (s : WBState) (w : String)
    (obs : List (String × Int)) :
    wallBlockFindByWallID (overwriteBlocks s w obs) w
      = wbBuildRows s.next w obs := by
  show wallBlockFindByWallID
      ((obs.foldl (fun acc bp => wallBlockCreateFresh acc w bp)
        ((wallBlockFindByWallID s w).foldl
          (fun acc a => wallBlockDelete acc a.id) s))) w
    = wbBuildRows s.next w obs
  rw [wb_delete_foldl, wb_create_foldl]
  unfold wallBlockFindByWallID
  dsimp only
  rw [List.filter_append]
  have h1 : (s.rows.filter
      (fun r => (s.rows.filter fun r => r.wallID == w).all
        fun a => !(r.id == a.id))).filter
      (fun r => r.wallID == w) = [] := by
    rw [List.filter_eq_nil_iff]
    intro r hr hw
    rw [List.mem_filter] at hr
    have hmem : r ∈ s.rows.filter fun r => r.wallID == w := by
      rw [List.mem_filter]
      exact ⟨hr.1, hw⟩
    have := (List.all_eq_true.mp hr.2) r hmem
    simp at this
  have h2 : (wbBuildRows s.next w obs).filter (fun r => r.wallID == w)
      = wbBuildRows s.next w obs := by
    rw [List.filter_eq_self]
    intro r hr
    have := (wbBuildRows_mem w obs s.next r hr).1
    simp [this]
  rw [h1, h2, List.nil_append]

/-- OverwriteBlocks advances the freshness counter by exactly the number of
desired entries. -/
theorem overwriteBlocks_next (s : WBState) (w : String)
    (obs : List (String × Int)) :
    (overwriteBlocks s w obs).next = s.next + obs.length := by
  show (obs.foldl (fun acc bp => wallBlockCreateFresh acc w bp)
      ((wallBlockFindByWallID s w).foldl
        (fun acc a => wallBlockDelete acc a.id) s)).next
    = s.next + obs.length
  rw [wb_delete_foldl, wb_create_foldl]

/-- A block answered by blockAdapter.Find carries the requested UUID as ID. -/
theorem blockAdapterFind_id (bs : List BlockDB) (u : String) (b : Block)
    (h : blockAdapterFind bs u = some b) : b.id = u := by
  unfold blockAdapterFind at h
  rw [Option.map_eq_some'] at h
  rcases h with ⟨row, hrow, hb⟩
  have hmem : row ∈ bs.filter fun r => r.uuid == u := by
    refine List.mem_of_mem_head? ?_
    rw [hrow]; rfl
  rw [List.mem_filter] at hmem
  have : row.uuid = u := by simpa using hmem.2
  rw [← hb]
  simpa [BlockDB.toDomainModel] using this

/-- Resolution of the engine-built rows: when every desired child ID
resolves, the response list exists and projects back to exactly the desired
entries. -/
theorem findBlocksAux_build (bs : List BlockDB) (w : String) :
    ∀ (obs : List (String × Int)) (n : Nat),
    (∀ bp ∈ obs, (blockAdapterFind bs bp.1).isSome) →
    ∃ l, findBlocksAux bs (wbBuildRows n w obs) = some l ∧
         l.map (fun resp => (resp.block.id, resp.position)) = obs
  | [], n, _ => ⟨[], rfl, rfl⟩
  | bp :: rest, n, h => by
    have hhead := h bp (List.mem_cons_self bp rest)
    rcases Option.isSome_iff_exists.mp hhead with ⟨b, hb⟩
    have hid : b.id = bp.1 := blockAdapterFind_id bs bp.1 b hb
    rcases findBlocksAux_build bs w rest (n + 1)
        (fun x hx => h x (List.mem_cons_of_mem bp hx)) with ⟨l', hl', hmap⟩
    refine ⟨⟨⟨b.id, b.name, b.kind, b.description⟩, bp.2⟩ :: l', ?_, ?_⟩
    · simp [wbBuildRows, findBlocksAux, hb, hl']
    · simp [hmap, hid]

/-- Delete-fold characterization for the block_program table. -/
theorem bp_delete_foldl : ∀ (l : List BlockProgram) (s : BPState),
    l.foldl (fun acc a => blockProgramDelete acc a.id) s
      = ⟨s.rows.filter (fun r => l.all fun a => !(r.id == a.id)), s.next⟩
  | [], s => by simp
  | a :: l', s => by
    rw [List.foldl_cons, bp_delete_foldl l']
    simp only [blockProgramDelete, List.filter_filter]
    congr 1
    apply List.filter_congr
    intro r _
    simp [List.all_cons, Bool.and_comm]

/-- Create-fold characterization for OverwritePrograms. -/
theorem bp_create_foldl (w : String) : ∀ (obs : List (String × Int))
    (s : BPState),
    obs.foldl (fun acc pp => blockProgramCreateFresh acc w pp) s
      = ⟨s.rows ++ bpBuildRows s.next w obs, s.next + obs.length⟩
  | [], s => by simp [bpBuildRows]
  | pp :: rest, s => by
    rw [List.foldl_cons, bp_create_foldl w rest]
    simp [blockProgramCreateFresh, blockProgramCreate, bpBuildRows]
    omega

/-- Every row built by OverwritePrograms belongs to the block it was built
for. -/
theorem bpBuildRows_blockID (w : String) : ∀ (obs : List (String × Int))
    (n : Nat) (r : BlockProgram), r ∈ bpBuildRows n w obs → r.blockID = w
  | [], _, _, h => by simp [bpBuildRows] at h
  | pp :: rest, n, r, h => by
    simp only [bpBuildRows, List.mem_cons] at h
    rcases h with h | h
    · subst h; rfl
    · exact bpBuildRows_blockID w rest (n + 1) r h

/-- Core postcondition of the overwrite engine, block/program instance. -/
theorem overwritePrograms_find (s : BPState) (w : String)
    (obs : List (String × Int)) :
    blockProgramFindByBlockID (overwritePrograms s w obs) w
      = bpBuildRows s.next w obs := by
  show blockProgramFindByBlockID
      ((obs.foldl (fun acc pp => blockProgramCreateFresh acc w pp)
        ((blockProgramFindByBlockID s w).foldl
          (fun acc a => blockProgramDelete acc a.id) s))) w
    = bpBuildRows s.next w obs
  rw [bp_delete_foldl, bp_create_foldl]
  unfold blockProgramFindByBlockID
  dsimp only
  rw [List.filter_append]
  have h1 : (s.rows.filter
      (fun r => (s.rows.filter fun r => r.blockID == w).all
        fun a => !(r.id == a.id))).filter
      (fun r => r.blockID == w) = [] := by
    rw [List.filter_eq_nil_iff]
    intro r hr hw
    rw [List.mem_filter] at hr
    have hmem : r ∈ s.rows.filter fun r => r.blockID == w := by
      rw [List.mem_filter]
      exact ⟨hr.1, hw⟩
    have := (List.all_eq_true.mp hr.2) r hmem
    simp at this
  have h2 : (bpBuildRows s.next w obs).filter (fun r => r.blockID == w)
      = bpBuildRows s.next w obs := by
    rw [List.filter_eq_self]
    intro r hr
    have := bpBuildRows_blockID w obs s.next r hr
    simp [this]
  rw [h1, h2, List.nil_append]

/-- Delete-fold characterization for the program_tag table. -/
theorem pt_delete_foldl : ∀ (l : List ProgramTag) (s : PTState),
    l.foldl (fun acc a => programTagDelete acc a.id) s
      = ⟨s.rows.filter (fun r => l.all fun a => !(r.id == a.id)), s.next⟩
  | [], s => by simp
  | a :: l', s => by
    rw [List.foldl_cons, pt_delete_foldl l']
    simp only [programTagDelete, List.filter_filter]
    congr 1
    apply List.filter_congr
    intro r _
    simp [List.all_cons, Bool.and_comm]

/-- Create-fold characterization for OverwriteTags. -/
theorem pt_create_foldl (p : String) : ∀ (tags : List String) (s : PTState),
    tags.foldl (fun acc tagID => programTagCreateFresh acc p tagID) s
      = ⟨s.rows ++ ptBuildRows s.next p tags, s.next + tags.length⟩
  | [], s => by simp [ptBuildRows]
  | t :: rest, s => by
    rw [List.foldl_cons, pt_create_foldl p rest]
    simp [programTagCreateFresh, programTagCreate, ptBuildRows]
    omega

/-- Every row built by OverwriteTags belongs to the program it was built
for. -/
theorem ptBuildRows_programID (p : String) : ∀ (tags : List String) (n : Nat)
    (r : ProgramTag), r ∈ ptBuildRows n p tags → r.programID = p
  | [], _, _, h => by simp [ptBuildRows] at h
  | t :: rest, n, r, h => by
    simp only [ptBuildRows, List.mem_cons] at h
    rcases h with h | h
    · subst h; rfl
    · exact ptBuildRows_programID p rest (n + 1) r h

/-- Core postcondition of the overwrite engine, program/tag instance. -/
theorem overwriteTags_find (s : PTState) (p : String) (tags : List String) :
    programTagFindByProgramID (overwriteTags s p tags) p
      = ptBuildRows s.next p tags := by
  show programTagFindByProgramID
      ((tags.foldl (fun acc tagID => programTagCreateFresh acc p tagID)
        ((programTagFindByProgramID s p).foldl
          (fun acc a => programTagDelete acc a.id) s))) p
    = ptBuildRows s.next p tags
  rw [pt_delete_foldl, pt_create_foldl]
  unfold programTagFindByProgramID
  dsimp only
  rw [List.filter_append]
  have h1 : (s.rows.filter
      (fun r => (s.rows.filter fun r => r.programID == p).all
        fun a => !(r.id == a.id))).filter
      (fun r => r.programID == p) = [] := by
    rw [List.filter_eq_nil_iff]
    intro r hr hw
    rw [List.mem_filter] at hr
    have hmem : r ∈ s.rows.filter fun r => r.programID == p := by
      rw [List.mem_filter]
      exact ⟨hr.1, hw⟩
    have := (List.all_eq_true.mp hr.2) r hmem
    simp at this
  have h2 : (ptBuildRows s.next p tags).filter (fun r => r.programID == p)
      = ptBuildRows s.next p tags := by
    rw [List.filter_eq_self]
    intro r hr
    have := ptBuildRows_programID p tags s.next r hr
    simp [this]
  rw [h1, h2, List.nil_append]

/-- Delete-fold characterization for the program_category table. -/
theorem pc_delete_foldl : ∀ (l : List ProgramCategory) (s : PCState),
    l.foldl (fun acc a => programCategoryDelete acc a.id) s
      = ⟨s.rows.filter (fun r => l.all fun a => !(r.id == a.id)), s.next⟩
  | [], s => by simp
  | a :: l', s => by
    rw [List.foldl_cons, pc_delete_foldl l']
    simp only [programCategoryDelete, List.filter_filter]
    congr 1
    apply List.filter_congr
    intro r _
    simp [List.all_cons, Bool.and_comm]

/-- Create-fold characterization for OverwriteCategories. -/
theorem pc_create_foldl (p : String) : ∀ (cats : List String) (s : PCState),
    cats.foldl (fun acc catID => programCategoryCreateFresh acc p catID) s
      = ⟨s.rows ++ pcBuildRows s.next p cats, s.next + cats.length⟩
  | [], s => by simp [pcBuildRows]
  | c :: rest, s => by
    rw [List.foldl_cons, pc_create_foldl p rest]
    simp [programCategoryCreateFresh, programCategoryCreate, pcBuildRows]
    omega

/-- Every row built by OverwriteCategories belongs to the program it was
built for. -/
theorem pcBuildRows_programID (p : String) : ∀ (cats : List String) (n : Nat)
    (r : ProgramCategory), r ∈ pcBuildRows n p cats → r.programID = p
  | [], _, _, h => by simp [pcBuildRows] at h
  | c :: rest, n, r, h => by
    simp only [pcBuildRows, List.mem_cons] at h
    rcases h with h | h
    · subst h; rfl
    · exact pcBuildRows_programID p rest (n + 1) r h

/-- Core postcondition of the overwrite engine, program/category instance. -/
theorem overwriteCategories_find (s : PCState) (p : String)
    (cats : List String) :
    programCategoryFindByProgramID (overwriteCategories s p cats) p
      = pcBuildRows s.next p cats := by
  show programCategoryFindByProgramID
      ((cats.foldl (fun acc catID => programCategoryCreateFresh acc p catID)
        ((programCategoryFindByProgramID s p).foldl
          (fun acc a => programCategoryDelete acc a.id) s))) p
    = pcBuildRows s.next p cats
  rw [pc_delete_foldl, pc_create_foldl]
  unfold programCategoryFindByProgramID
  dsimp only
  rw [List.filter_append]
  have h1 : (s.rows.filter
      (fun r => (s.rows.filter fun r => r.programID == p).all
        fun a => !(r.id == a.id))).filter
      (fun r => r.programID == p) = [] := by
    rw [List.filter_eq_nil_iff]
    intro r hr hw
    rw [List.mem_filter] at hr
    have hmem : r ∈ s.rows.filter fun r => r.programID == p := by
      rw [List.mem_filter]
      exact ⟨hr.1, hw⟩
    have := (List.all_eq_true.mp hr.2) r hmem
    simp at this
  have h2 : (pcBuildRows s.next p cats).filter (fun r => r.programID == p)
      = pcBuildRows s.next p cats := by
    rw [List.filter_eq_self]
    intro r hr
    have := pcBuildRows_programID p cats s.next r hr
    simp [this]
  rw [h1, h2, List.nil_append]

/-- Updating a wall touches only the matching row's name and description,
each falling back to the stored column when the corresponding update field
is empty (NULL parameter under COALESCE). -/
theorem wallAdapterFind_update (u : String) (upd : Wall) (s : List WallDB)
    (w : Wall) (hw : wallAdapterFind s u = some w) :
    wallAdapterFind (wallAdapterUpdate s u upd) u = some
      ⟨w.id, if upd.name = "" then w.name else upd.name,
       if upd.description = "" then w.description else upd.description⟩ := by
  unfold wallAdapterFind at hw ⊢
  unfold wallAdapterUpdate
  rw [Option.map_eq_some'] at hw
  obtain ⟨r0, hr0, hr0w⟩ := hw
  have hr0mem : r0 ∈ s.filter fun r => r.uuid == u := by
    refine List.mem_of_mem_head? ?_
    rw [hr0]; rfl
  have hr0u : r0.uuid = u := by
    rw [List.mem_filter] at hr0mem
    simpa using hr0mem.2
  set f : WallDB → WallDB := fun r =>
    if r.uuid = u then
      { r with
        name := coalesce (WallDB.fromDomainModel { upd with id := u }).name r.name,
        description :=
          coalesce (WallDB.fromDomainModel { upd with id := u }).description
            r.description }
    else r with hf
  have hfp : (fun r => (f r).uuid == u) = fun r => r.uuid == u := by
    funext r
    by_cases hru : r.uuid = u <;> simp [hf, hru]
  rw [List.filter_map, Function.comp_def]
  rw [show (fun r => (f r).uuid == u) = fun r => r.uuid == u from hfp]
  rw [List.head?_map, hr0, Option.map_some', Option.map_some']
  show some (WallDB.toDomainModel (f r0)) = _
  rw [hf]
  dsimp only
  rw [if_pos hr0u, ← hr0w]
  unfold WallDB.toDomainModel WallDB.fromDomainModel
  by_cases hn : upd.name = "" <;> by_cases hd : upd.description = "" <;>
    simp [nullString, coalesce, hn, hd]

/-- Claim C1, counterexample to the original statement: with the desired map
{B1 ↦ 0} over wall W1 and a block store that does not contain B1,
OverwriteBlocks completes without error, yet the subsequent FindBlocks
produces no entry list at all — blockAdapter.Find answers B1 with a nil
block and a nil error, and FindBlocks dereferences the nil block — so it
does not return one entry per pair of D. -/
theorem claim1_counterexample :
    findBlocks (overwriteBlocks ⟨[], 0⟩ "W1" [("B1", 0)]) [] "W1" = none ∧
    ¬ ∃ l, findBlocks (overwriteBlocks ⟨[], 0⟩ "W1" [("B1", 0)]) [] "W1"
          = some l ∧
        l.map (fun resp => (resp.block.id, resp.position)) = [("B1", 0)] := by
  have hnone : findBlocks (overwriteBlocks ⟨[], 0⟩ "W1" [("B1", 0)]) [] "W1"
      = none := by rfl
  refine ⟨hnone, ?_⟩
  rintro ⟨l, hl, -⟩
  rw [hnone] at hl
  exact Option.noConfusion hl

/-- Claim C1 (amended): for every wall ID w, every desired map D — embedded
as its entry list, with pairwise distinct keys — and every association
store state, provided additionally that every block ID of D resolves
through the block store, OverwriteBlocks completes and a subsequent
FindBlocks returns exactly one entry per pair of D, with matching block ID
and position — no extras, no omissions; with an empty D the wall is left
with zero associations.  The resolvability hypothesis is the amendment,
forced by claim1_counterexample; OverwriteBlocks itself cannot fail over
the in-memory store, so the success hypothesis of the claim is implicit. -/
theorem claim1_overwrite_completeness (s : WBState) (w : String)
    (D : List (String × Int)) (bs : List BlockDB)
    (_hkeys : (D.map Prod.fst).Nodup)
    (hres : ∀ bp ∈ D, (blockAdapterFind bs bp.1).isSome) :
    (∃ l, findBlocks (overwriteBlocks s w D) bs w = some l ∧
        l.map (fun resp => (resp.block.id, resp.position)) = D) ∧
    wallBlockFindByWallID (overwriteBlocks s w []) w = [] := by
  constructor
  · unfold findBlocks
    rw [overwriteBlocks_find]
    exact findBlocksAux_build bs w D s.next hres
  · rw [overwriteBlocks_find]
    rfl

/-- Concrete instance of claim1_overwrite_completeness: one block, resolvable. -/
theorem claim1_witness :
    (∃ l, findBlocks (overwriteBlocks ⟨[], 0⟩ "W1" [("B1", 0)])
          [⟨"B1", some "n", some "d", some "k"⟩] "W1" = some l ∧
        l.map (fun resp => (resp.block.id, resp.position)) = [("B1", 0)]) ∧
    wallBlockFindByWallID (overwriteBlocks ⟨[], 0⟩ "W1" []) "W1" = [] :=
  claim1_overwrite_completeness ⟨[], 0⟩ "W1" [("B1", 0)]
    [⟨"B1", some "n", some "d", some "k"⟩] (by decide) (by decide)

/-- Claim C2, counterexample to the original statement: with desired map
{B2 ↦ 1} and a block store not containing B2, both Overwrite calls
complete, yet FindChildren returns no result list after the second call
(nor after the first), so its results do not equal D by child ID and
position. -/
theorem claim2_counterexample :
    findBlocks (overwriteBlocks (overwriteBlocks ⟨[], 0⟩ "W1" [("B2", 1)])
        "W1" [("B2", 1)]) [] "W1" = none ∧
    ¬ ∃ l, findBlocks (overwriteBlocks (overwriteBlocks ⟨[], 0⟩ "W1"
          [("B2", 1)]) "W1" [("B2", 1)]) [] "W1" = some l ∧
        l.map (fun resp => (resp.block.id, resp.position)) = [("B2", 1)] := by
  have hnone : findBlocks (overwriteBlocks (overwriteBlocks ⟨[], 0⟩ "W1"
      [("B2", 1)]) "W1" [("B2", 1)]) [] "W1" = none := by rfl
  refine ⟨hnone, ?_⟩
  rintro ⟨l, hl, -⟩
  rw [hnone] at hl
  exact Option.noConfusion hl

/-- Claim C2 (amended): for every parent ID and desired set D whose child
IDs all resolve through the Entity Store, overwriting twice in sequence
yields FindChildren results equal to D — by child ID and position — after
each call, and every association row ID produced by the second call differs
from every row ID produced by the first.  The resolvability hypothesis is
the amendment, forced by claim2_counterexample. -/
theorem claim2_overwrite_idempotent (s : WBState) (w : String)
    (D : List (String × Int)) (bs : List BlockDB)
    (hres : ∀ bp ∈ D, (blockAdapterFind bs bp.1).isSome) :
    (∃ l, findBlocks (overwriteBlocks s w D) bs w = some l ∧
        l.map (fun resp => (resp.block.id, resp.position)) = D) ∧
    (∃ l, findBlocks (overwriteBlocks (overwriteBlocks s w D) w D) bs w
          = some l ∧
        l.map (fun resp => (resp.block.id, resp.position)) = D) ∧
    (∀ r1 ∈ wallBlockFindByWallID (overwriteBlocks s w D) w,
      ∀ r2 ∈ wallBlockFindByWallID
          (overwriteBlocks (overwriteBlocks s w D) w D) w,
        r1.id ≠ r2.id) := by
  refine ⟨?_, ?_, ?_⟩
  · unfold findBlocks
    rw [overwriteBlocks_find]
    exact findBlocksAux_build bs w D s.next hres
  · unfold findBlocks
    rw [overwriteBlocks_find]
    exact findBlocksAux_build bs w D (overwriteBlocks s w D).next hres
  · intro r1 h1 r2 h2
    rw [overwriteBlocks_find] at h1 h2
    obtain ⟨-, -, hlt⟩ := wbBuildRows_mem w D s.next r1 h1
    obtain ⟨-, hge, -⟩ :=
      wbBuildRows_mem w D (overwriteBlocks s w D).next r2 h2
    rw [overwriteBlocks_next] at hge
    omega

/-- Concrete instance of claim2_overwrite_idempotent: one resolvable block,
two overwrite calls. -/
theorem claim2_witness :
    (∃ l, findBlocks (overwriteBlocks ⟨[], 0⟩ "W2" [("B7", 3)])
          [⟨"B7", some "n", some "d", some "k"⟩] "W2" = some l ∧
        l.map (fun resp => (resp.block.id, resp.position)) = [("B7", 3)]) ∧
    (∃ l, findBlocks (overwriteBlocks (overwriteBlocks ⟨[], 0⟩ "W2"
          [("B7", 3)]) "W2" [("B7", 3)])
          [⟨"B7", some "n", some "d", some "k"⟩] "W2" = some l ∧
        l.map (fun resp => (resp.block.id, resp.position)) = [("B7", 3)]) ∧
    (∀ r1 ∈ wallBlockFindByWallID (overwriteBlocks ⟨[], 0⟩ "W2"
        [("B7", 3)]) "W2",
      ∀ r2 ∈ wallBlockFindByWallID (overwriteBlocks (overwriteBlocks
          ⟨[], 0⟩ "W2" [("B7", 3)]) "W2" [("B7", 3)]) "W2",
        r1.id ≠ r2.id) :=
  claim2_overwrite_idempotent ⟨[], 0⟩ "W2" [("B7", 3)]
    [⟨"B7", some "n", some "d", some "k"⟩] (by decide)

/-- Claim C3, counterexample: OverwriteBlocks called with the empty wall ID
returns no validation error — the operation, like the Go code, has no
validation branch and always completes — and the engine and store are
invoked: a Create is performed, leaving an association row bound to the
empty parent ID. -/
theorem claim3_counterexample :
    (overwriteBlocks ⟨[], 0⟩ "" [("B1", 5)]).rows = [⟨0, "", "B1", 5⟩] ∧
    (overwriteBlocks ⟨[], 0⟩ "" [("B1", 5)]).rows ≠ [] := by
  refine ⟨by rfl, ?_⟩
  rw [show (overwriteBlocks ⟨[], 0⟩ "" [("B1", 5)]).rows
      = [⟨0, "", "B1", 5⟩] from rfl]
  simp

/-- Claim C3 (amended): none of the four Overwrite operations
(OverwriteBlocks, OverwritePrograms, OverwriteTags, OverwriteCategories)
validates its parent ID; each invokes the engine unconditionally, for the
empty parent ID exactly as for any other — the engine postcondition (the
parent's associations become precisely the freshly built desired rows)
holds for every parent ID including "", and no validation error exists on
these paths. -/
theorem claim3_no_parent_validation (s : WBState) (t : BPState) (u : PTState)
    (v : PCState) (pid : String) (D : List (String × Int))
    (tags cats : List String) :
    wallBlockFindByWallID (overwriteBlocks s pid D) pid
        = wbBuildRows s.next pid D ∧
    blockProgramFindByBlockID (overwritePrograms t pid D) pid
        = bpBuildRows t.next pid D ∧
    programTagFindByProgramID (overwriteTags u pid tags) pid
        = ptBuildRows u.next pid tags ∧
    programCategoryFindByProgramID (overwriteCategories v pid cats) pid
        = pcBuildRows v.next pid cats :=
  ⟨overwriteBlocks_find s pid D, overwritePrograms_find t pid D,
   overwriteTags_find u pid tags, overwriteCategories_find v pid cats⟩

/-- Claim C4: a Create request whose name and description are both empty is
answered with one error whose message reports both fields (the two
ValidationErrors joined on one error value), and in general the aggregated
validation error is returned exactly when at least one field check fails. -/
theorem claim4_validation_aggregation (s : List WallDB)
    (req : CreateWallRequest) (freshID : String) :
    (req.name = "" ∧ req.description = "" →
      wallApiCreate s req freshID = .error
        ("request was not validated: " ++
          "name : is required" ++ "\n" ++ "description : is required")) ∧
    ((∃ msg, wallApiCreate s req freshID = .error msg) ↔
      createWallRequestValidation req ≠ []) ∧
    (createWallRequestValidation req ≠ [] ↔
      (req.name = "" ∨ req.description = "")) := by
  refine ⟨?_, ⟨?_, ?_⟩, ?_⟩
  · rintro ⟨h1, h2⟩
    simp only [wallApiCreate, createWallRequestValidation, h1, h2]
    rfl
  · rintro ⟨msg, hmsg⟩ hnil
    simp [wallApiCreate, hnil] at hmsg
  · intro hne
    refine ⟨"request was not validated: " ++
      validationErrorsString (createWallRequestValidation req), ?_⟩
    simp [wallApiCreate, hne]
  · by_cases hn : req.name = "" <;> by_cases hd : req.description = "" <;>
      simp [createWallRequestValidation, hn, hd]

/-- Concrete instance of claim4_validation_aggregation: both fields empty. -/
theorem claim4_witness :
    wallApiCreate [] ⟨"", ""⟩ "id1" = .error
      ("request was not validated: " ++
        "name : is required" ++ "\n" ++ "description : is required") :=
  (claim4_validation_aggregation [] ⟨"", ""⟩ "id1").1 ⟨rfl, rfl⟩

/-- Claim C5: on any stored wall, an update request with an empty name and
description "new desc" succeeds, keeps the stored name unchanged and sets
the description — the empty request field becomes a NULL parameter and the
adapter's COALESCE keeps the old column. -/
theorem claim5_partial_update (s : List WallDB) (u : String) (w : Wall)
    (hu : u ≠ "") (hw : wallAdapterFind s u = some w) :
    ∃ s', wallApiUpdate s u ⟨"", "new desc"⟩ = .ok s' ∧
      wallAdapterFind s' u = some ⟨w.id, w.name, "new desc"⟩ := by
  refine ⟨wallAdapterUpdate s u ⟨"", "", "new desc"⟩, ?_, ?_⟩
  · simp [wallApiUpdate, updateWallRequestValidation, hu]
  · have h := wallAdapterFind_update u ⟨"", "", "new desc"⟩ s w hw
    simpa using h

/-- Concrete instance of claim5_partial_update: a wall named X. -/
theorem claim5_witness :
    ∃ s', wallApiUpdate [⟨"W1", some "X", some "old"⟩] "W1" ⟨"", "new desc"⟩
        = .ok s' ∧
      wallAdapterFind s' "W1" = some ⟨"W1", "X", "new desc"⟩ :=
  claim5_partial_update [⟨"W1", some "X", some "old"⟩] "W1" ⟨"W1", "X", "old"⟩
    (by decide) (by decide)

/-- Claim C6: creating a category under a fresh uuid and finding it again
returns a response whose parent ID equals the requested one — the value P
when a non-empty parent ID was supplied, and "" (no parent) when the parent
ID was empty. -/
theorem claim6_parent_roundtrip (s : List CategoryDB)
    (req : CreateCategoryRequest) (fid : String)
    (hn : req.name ≠ "") (hd : req.description ≠ "")
    (hfresh : ∀ r ∈ s, r.uuid ≠ fid) :
    ∃ s', categoryApiCreate s req fid = some (.ok s') ∧
      categoryApiFind s' fid
        = .ok ⟨fid, req.name, req.description, req.parentID⟩ ∧
      (req.parentID = "" → categoryApiFind s' fid
        = .ok ⟨fid, req.name, req.description, ""⟩) := by
  refine ⟨s ++ [⟨fid, req.name, req.description,
    if req.parentID ≠ "" then some req.parentID else none⟩], ?_, ?_, ?_⟩
  · simp [categoryApiCreate, createCategoryRequestValidation, hn, hd,
      categoryAdapterCreate, CategoryDB.fromDomainModel]
  · have hfilter : (s ++ [(⟨fid, req.name, req.description,
        if req.parentID ≠ "" then some req.parentID else none⟩ :
          CategoryDB)]).filter (fun r => r.uuid == fid)
        = [⟨fid, req.name, req.description,
            if req.parentID ≠ "" then some req.parentID else none⟩] := by
      rw [List.filter_append]
      have h1 : s.filter (fun r => r.uuid == fid) = [] := by
        rw [List.filter_eq_nil_iff]
        intro r hr hbeq
        exact hfresh r hr (by simpa using hbeq)
      rw [h1]
      simp
    simp only [categoryApiFind, categoryAdapterFind, hfilter, List.head?]
    by_cases hp : req.parentID = "" <;>
      simp [CategoryDB.toDomainModel, hp]
  · intro hp
    have hfilter : (s ++ [(⟨fid, req.name, req.description,
        if req.parentID ≠ "" then some req.parentID else none⟩ :
          CategoryDB)]).filter (fun r => r.uuid == fid)
        = [⟨fid, req.name, req.description,
            if req.parentID ≠ "" then some req.parentID else none⟩] := by
      rw [List.filter_append]
      have h1 : s.filter (fun r => r.uuid == fid) = [] := by
        rw [List.filter_eq_nil_iff]
        intro r hr hbeq
        exact hfresh r hr (by simpa using hbeq)
      rw [h1]
      simp
    simp only [categoryApiFind, categoryAdapterFind, hfilter, List.head?]
    simp [CategoryDB.toDomainModel, hp]

/-- Concrete instance of claim6_parent_roundtrip: parent P. -/
theorem claim6_witness :
    ∃ s', categoryApiCreate [] ⟨"n", "d", "P"⟩ "C1" = some (.ok s') ∧
      categoryApiFind s' "C1" = .ok ⟨"C1", "n", "d", "P"⟩ ∧
      (("P" : String) = "" → categoryApiFind s' "C1"
        = .ok ⟨"C1", "n", "d", ""⟩) :=
  claim6_parent_roundtrip [] ⟨"n", "d", "P"⟩ "C1"
    (by decide) (by decide) (by simp)

/-- Claim C7, counterexample to the original statement: under the part_016
adapter variant, an Update whose supplied parent ID is the all-zeros UUID
writes that zero value as a valid parent — the stored parentUUID of C1
changes from P to the all-zeros UUID. -/
theorem claim7_counterexample :
    categoryApiUpdate [⟨"C1", "n", "d", some "P"⟩] "C1" ⟨"n2", "d2", zeroUUID⟩
        = some (.ok [⟨"C1", "n2", "d2", some zeroUUID⟩]) ∧
    some zeroUUID ≠ (some "P" : Option String) := by
  constructor
  · rfl
  · simp [zeroUUID]

/-- Claim C7 (amended): under the mysql/category.go adapter variant, an
Update whose supplied parent ID is the zero value — empty or the all-zeros
UUID — leaves every stored parent reference unchanged (the conversion maps
both to uuid.Nil and the SQL NULLIF/COALESCE pair keeps the old parent);
under the part_016 variant, the all-zeros UUID is instead written as a
valid parent (claim7_counterexample). -/
theorem claim7_zero_parent_preserved (s : List CategoryDBA) (u : String)
    (req : UpdateCategoryRequest) (hu : u ≠ "")
    (hz : req.parentID = "" ∨ req.parentID = zeroUUID) :
    ∃ s', categoryApiUpdateA s u req = .ok s' ∧
      s'.map (fun r => (r.uuid, r.parentID))
        = s.map (fun r => (r.uuid, r.parentID)) := by
  refine ⟨categoryAdapterUpdateA s u (categoryToUpdate req), ?_, ?_⟩
  · simp [categoryApiUpdateA, updateCategoryRequestValidation, hu]
  · unfold categoryAdapterUpdateA
    rw [List.map_map]
    apply List.map_congr_left
    intro r _
    have hrow : (CategoryDBA.fromDomainModel
        { categoryToUpdate req with id := u }).parentID = zeroUUID := by
      rcases hz with hz | hz <;>
        simp [CategoryDBA.fromDomainModel, categoryToUpdate, hz, zeroUUID]
    by_cases hru : r.uuid = u
    · simp [Function.comp_def, hru, hrow]
    · simp [Function.comp_def, hru]

/-- Concrete instance of claim7_zero_parent_preserved: empty parent ID. -/
theorem claim7_witness :
    ∃ s' : List CategoryDBA,
      categoryApiUpdateA [⟨"C1", some "n", some "d", "P"⟩] "C1"
        ⟨"n2", "d2", ""⟩ = .ok s' ∧
      s'.map (fun r => (r.uuid, r.parentID))
        = ([⟨"C1", some "n", some "d", "P"⟩] : List CategoryDBA).map
            (fun r => (r.uuid, r.parentID)) :=
  claim7_zero_parent_preserved [⟨"C1", some "n", some "d", "P"⟩] "C1"
    ⟨"n2", "d2", ""⟩ (by decide) (Or.inl rfl)

/-- Claim C8 at the failing input: with no wall stored, Find on W1 makes
wallAdapter.Find return a nil wall together with a nil error (`none` on the
adapter side: a nil result without an error, exactly what the claim rules
out), and wallApi.Find then dereferences the nil wall while building the
response — the service produces neither a NotFound error nor a response. -/
theorem claim8_find_missing_wall :
    wallAdapterFind [] "W1" = none ∧ wallApiFind [] "W1" = none :=
  ⟨rfl, rfl⟩

/-- Claim C9 at the failing input: the wall W1 carries one association
pointing at block B1, which is missing from the block store;
blockAdapter.Find answers B1 with a nil block and a nil error, and
FindBlocks dereferences the nil block — the call produces neither an error
value nor a (partial) result list. -/
theorem claim9_dangling_block :
    blockAdapterFind [] "B1" = none ∧
    findBlocks ⟨[⟨0, "W1", "B1", 7⟩], 1⟩ [] "W1" = none :=
  ⟨rfl, rfl⟩

/-- Claim C10: a category update request whose ParentID accessor returns ""
is valid (only the uuid is checked), the service layer builds a Category
whose Parent pointer is nil, and the part_016 adapter conversion
CategoryDB.FromDomainModel dereferences that nil Parent unconditionally —
the conversion, and with it the whole update, has no value on this input
(`none`), instead of producing an error value. -/
theorem claim10_nil_parent_dereference (s : List CategoryDB) (u : String)
    (req : UpdateCategoryRequest) (hu : u ≠ "") (hp : req.parentID = "") :
    updateCategoryRequestValidation u req = [] ∧
    (categoryToUpdate req).parent = none ∧
    CategoryDB.fromDomainModel { categoryToUpdate req with id := u } = none ∧
    categoryApiUpdate s u req = none := by
  have h1 : updateCategoryRequestValidation u req = [] := by
    simp [updateCategoryRequestValidation, hu]
  have h3 : CategoryDB.fromDomainModel { categoryToUpdate req with id := u }
      = none := by
    simp [CategoryDB.fromDomainModel, categoryToUpdate, hp]
  refine ⟨h1, by simp [categoryToUpdate, hp], h3, ?_⟩
  simp [categoryApiUpdate, h1, categoryAdapterUpdate, h3]

/-- Concrete instance of claim10_nil_parent_dereference. -/
theorem claim10_witness :
    updateCategoryRequestValidation "C1" ⟨"n", "d", ""⟩ = [] ∧
    (categoryToUpdate ⟨"n", "d", ""⟩).parent = none ∧
    CategoryDB.fromDomainModel
      { categoryToUpdate ⟨"n", "d", ""⟩ with id := "C1" } = none ∧
    categoryApiUpdate [] "C1" ⟨"n", "d", ""⟩ = none :=
  claim10_nil_parent_dereference [] "C1" ⟨"n", "d", ""⟩ (by decide) rfl

end PodcasterSpec
